import Mathlib

/-!
Verification of the milhouse context-memory engine (mcp-server).

The TypeScript sources are shallowly embedded below:
* `hashString`, `generateSimpleEmbedding`, `generateEmbedding` from
  `src/embeddings.ts`;
* `ContextStore` operations from `src/store.ts` (modelled as pure
  functions over a `List Entry` table, the row set of the LanceDB table);
* `ConversationIndexer.hashProjectPath` from `src/indexer.ts`;
* the MCP tool-call dispatcher from `src/index.ts`.

JavaScript machine integers are modelled as `Int` with explicit wrapping
to the signed 32-bit range, and JavaScript floating point arithmetic is
idealised over `ℚ`/`ℝ` (weights `1/(i+1)` are exact rationals, the square
root of the normalisation step is `Real.sqrt`).  Strings are Lean strings;
`charCodeAt` becomes `Char.toNat` (exact on the BMP).  External effects
(LanceDB nearest-neighbour retrieval, the remote embedding endpoint, the
filesystem indexer, the clock) are passed in as explicit oracles.
-/

namespace Milhouse

/-- Wrap an integer to the signed 32-bit range, as the JavaScript bitwise
operators do (`hash = hash & hash` in the source). -/
def toInt32 (n : ℤ) : ℤ := (n + 2 ^ 31) % 2 ^ 32 - 2 ^ 31

theorem toInt32_congr {a b : ℤ} (h : (2 ^ 32 : ℤ) ∣ (a - b)) :
    toInt32 a = toInt32 b := by
  rcases h with ⟨k, hk⟩
  unfold toInt32
  omega

theorem dvd_toInt32_sub_self (a : ℤ) : (2 ^ 32 : ℤ) ∣ (toInt32 a - a) := by
  unfold toInt32
  omega

/-- One step of the rolling hash from `embeddings.ts`:
`hash = ((hash << 5) - hash) + char; hash = hash & hash;`.
`hash << 5` wraps the product `hash * 32` to signed 32 bits, the
subtraction and addition are exact, and `hash & hash` wraps again. -/
def jsHashStep (h : ℤ) (c : Char) : ℤ :=
  toInt32 (toInt32 (h * 32) - h + (c.toNat : ℤ))

/-- Function `hashString` from `embeddings.ts`: fold `jsHashStep` over the
characters, starting from 0. -/
def hashString (s : String) : ℤ := s.data.foldl jsHashStep 0

/-- Modelled from the spec: one step of the reference rolling hash,
`hash = hash * 31 + charCode`, wrapped to signed 32-bit. -/
def specHashStep (h : ℤ) (c : Char) : ℤ :=
  toInt32 (31 * h + (c.toNat : ℤ))

/-- Modelled from the spec: the reference 32-bit rolling hash of a string. -/
def hashStringSpec (s : String) : ℤ := s.data.foldl specHashStep 0

theorem jsHashStep_eq_specHashStep : jsHashStep = specHashStep := by
  funext h c
  apply toInt32_congr
  have h32 := dvd_toInt32_sub_self (h * 32)
  have : toInt32 (h * 32) - h + (c.toNat : ℤ) - (31 * h + (c.toNat : ℤ))
      = toInt32 (h * 32) - h * 32 := by ring
  rw [this]
  exact h32

theorem hashString_eq_spec (s : String) : hashString s = hashStringSpec s := by
  unfold hashString hashStringSpec
  rw [jsHashStep_eq_specHashStep]

/-! ### The deterministic fallback embedding (`embeddings.ts`) -/

/-- The fixed vector dimension (`EMBEDDING_DIM = 1536` in `embeddings.ts`,
the OpenAI embedding dimension). -/
def EMBEDDING_DIM : ℕ := 1536

/-- JavaScript word characters, the regex class `\w` = `[A-Za-z0-9_]`. -/
def isWordChar (c : Char) : Bool := c.isAlphanum || c == '_'

/-- JavaScript whitespace as matched by `\s` (the common code points). -/
def isWs (c : Char) : Bool := c == ' ' || c == '\t' || c == '\n' || c == '\r'

/-- Helper for `splitWs`: accumulate the current run of non-whitespace
characters (in reverse) and emit it when whitespace or the end is hit. -/
def splitWsAux : List Char → List Char → List (List Char)
  | [], acc => if acc.isEmpty then [] else [acc.reverse]
  | c :: cs, acc =>
    if isWs c then
      if acc.isEmpty then splitWsAux cs []
      else acc.reverse :: splitWsAux cs []
    else splitWsAux cs (c :: acc)

/-- Split a character list into its maximal runs of non-whitespace
characters.  This models `split(/\s+/)`: the one empty fragment that the
regex split can produce at the front is dropped by the length filter that
follows in `generateSimpleEmbedding`, so only the non-empty runs matter. -/
def splitWs (l : List Char) : List (List Char) := splitWsAux l []

/-- The token pipeline of `generateSimpleEmbedding`:
lowercase, drop every character that is neither a word character nor
whitespace, split on whitespace, keep only tokens of length above 2. -/
def wordsOf (text : String) : List String :=
  ((splitWs ((text.data.map Char.toLower).filter
      (fun c => isWordChar c || isWs c))).map String.mk).filter
    (fun w => decide (w.length > 2))

/-- Bucket index of a token: `Math.abs(hashString(word)) % EMBEDDING_DIM`. -/
def bucketOf (w : String) : ℕ := (hashString w).natAbs % EMBEDDING_DIM

/-- The accumulated pre-normalisation bucket vector of
`generateSimpleEmbedding`: starting from the all-zero array, the token at
0-indexed position `idx` adds `1/(idx+1)` to its bucket. -/
def rawEmbed (text : String) (i : Fin EMBEDDING_DIM) : ℚ :=
  ((wordsOf text).enum.map
    (fun p => if bucketOf p.2 = i.1 then (1 : ℚ) / (p.1 + 1) else 0)).sum

/-- The squared magnitude computed by
`embedding.reduce((sum, val) => sum + val * val, 0)`. -/
def magnitudeSq (text : String) : ℚ :=
  ∑ i : Fin EMBEDDING_DIM, (rawEmbed text i) ^ 2

/-- Function `generateSimpleEmbedding` from `embeddings.ts`: the bucket vector,
divided componentwise by `Math.sqrt` of its squared magnitude when that
magnitude is positive, and returned unmodified (all zero) otherwise. -/
noncomputable def generateSimpleEmbedding (text : String) :
    Fin EMBEDDING_DIM → ℝ :=
  fun i =>
    if 0 < Real.sqrt ((magnitudeSq text : ℚ) : ℝ) then
      (rawEmbed text i : ℝ) / Real.sqrt ((magnitudeSq text : ℚ) : ℝ)
    else (rawEmbed text i : ℝ)

/-- Modelled from the spec: bucket index using the reference hash. -/
def bucketOfSpec (w : String) : ℕ := (hashStringSpec w).natAbs % EMBEDDING_DIM

/-- Modelled from the spec: the reference bucket vector (weight `1/(i+1)`
for the token at 0-indexed position `i`). -/
def rawEmbedSpec (text : String) (i : Fin EMBEDDING_DIM) : ℚ :=
  ((wordsOf text).enum.map
    (fun p => if bucketOfSpec p.2 = i.1 then (1 : ℚ) / (p.1 + 1) else 0)).sum

/-- Modelled from the spec: squared magnitude of the reference vector. -/
def magnitudeSqSpec (text : String) : ℚ :=
  ∑ i : Fin EMBEDDING_DIM, (rawEmbedSpec text i) ^ 2

/-- Modelled from the spec: the reference fallback embedding —
L2-normalise the bucket vector, except when the total magnitude is 0, in
which case the all-zero vector of length `EMBEDDING_DIM` is returned
unmodified. -/
noncomputable def specFallbackEmbedding (text : String) :
    Fin EMBEDDING_DIM → ℝ :=
  fun i =>
    if Real.sqrt ((magnitudeSqSpec text : ℚ) : ℝ) = 0 then 0
    else (rawEmbedSpec text i : ℝ) / Real.sqrt ((magnitudeSqSpec text : ℚ) : ℝ)

theorem bucketOf_eq_spec : bucketOf = bucketOfSpec := by
  funext w
  unfold bucketOf bucketOfSpec
  rw [hashString_eq_spec]

theorem rawEmbed_eq_spec : rawEmbed = rawEmbedSpec := by
  unfold rawEmbed rawEmbedSpec
  rw [bucketOf_eq_spec]

theorem magnitudeSq_eq_spec : magnitudeSq = magnitudeSqSpec := by
  unfold magnitudeSq magnitudeSqSpec
  rw [rawEmbed_eq_spec]

theorem magnitudeSq_nonneg (text : String) : 0 ≤ magnitudeSq text :=
  Finset.sum_nonneg fun _ _ => sq_nonneg _

theorem rawEmbed_eq_zero_of_magnitudeSq_eq_zero {text : String}
    (h : magnitudeSq text = 0) (i : Fin EMBEDDING_DIM) :
    rawEmbed text i = 0 := by
  have := (Finset.sum_eq_zero_iff_of_nonneg
    (fun j _ => sq_nonneg (rawEmbed text j))).mp h i (Finset.mem_univ i)
  exact pow_eq_zero_iff (n := 2) (by norm_num) |>.mp this

/-- Claim C2: the fallback embedding of `embeddings.ts` equals the
reference definition written from the spec — lowercase, strip punctuation,
split on whitespace, drop tokens of length at most 2; token `i` adds
weight `1/(i+1)` to bucket `abs(hash) mod 1536` where `hash` is the 32-bit
rolling hash `hash*31 + charCode` wrapped to signed 32-bit; finally
L2-normalise unless the total magnitude is 0, in which case the all-zero
vector of length 1536 is returned unmodified. -/
theorem generateSimpleEmbedding_eq_spec (text : String) :
    generateSimpleEmbedding text = specFallbackEmbedding text := by
  funext i
  unfold generateSimpleEmbedding specFallbackEmbedding
  rw [← rawEmbed_eq_spec, ← magnitudeSq_eq_spec]
  by_cases h : magnitudeSq text = 0
  · have hz : ((magnitudeSq text : ℚ) : ℝ) = 0 := by exact_mod_cast h
    rw [hz, Real.sqrt_zero, if_neg (lt_irrefl 0), if_pos rfl]
    exact_mod_cast rawEmbed_eq_zero_of_magnitudeSq_eq_zero h i
  · have hpos : (0 : ℝ) < ((magnitudeSq text : ℚ) : ℝ) := by
      exact_mod_cast lt_of_le_of_ne (magnitudeSq_nonneg text) (Ne.symm h)
    have hs : 0 < Real.sqrt ((magnitudeSq text : ℚ) : ℝ) := Real.sqrt_pos.mpr hpos
    rw [if_pos hs, if_neg (ne_of_gt hs)]

/-! ### The embedding provider with the remote path (`generateEmbedding`) -/

/-- The ambient configuration of `generateEmbedding`: the optional remote
credential `process.env.OPENAI_API_KEY`, together with the remote
embedding endpoint modelled as an oracle from the truncated request text
to `some` embedding on success or `none` on any network or API failure. -/
structure EmbedEnv where
  apiKey : Option String
  remote : String → Option (Fin EMBEDDING_DIM → ℝ)

/-- Function `generateEmbedding` from `embeddings.ts`: when a truthy credential is
configured, call the remote endpoint on the text truncated to 8000
characters and use its embedding on success; on failure, or without a
credential, fall back to `generateSimpleEmbedding`. -/
noncomputable def generateEmbedding (env : EmbedEnv) (text : String) :
    Fin EMBEDDING_DIM → ℝ :=
  if env.apiKey.getD ("") ≠ "" then
    match env.remote (String.mk (text.data.take 8000)) with
    | some v => v
    | none => generateSimpleEmbedding text
  else generateSimpleEmbedding text

/-- Claim C9: the fallback embedding path is deterministic — with no
remote credential configured, two calls of `generateEmbedding` on the same
text agree componentwise, whatever the remote endpoint would have done. -/
theorem generateEmbedding_deterministic (e₁ e₂ : EmbedEnv) (text : String)
    (h₁ : e₁.apiKey = none) (h₂ : e₂.apiKey = none) :
    generateEmbedding e₁ text = generateEmbedding e₂ text := by
  unfold generateEmbedding
  rw [h₁, h₂]
  simp

/-- Witness for C9: two concrete environments without a credential but
with different remote endpoints produce the same vector on a sample text. -/
theorem generateEmbedding_deterministic_witness :
    generateEmbedding ⟨none, fun _ => none⟩ "hello milhouse world" =
      generateEmbedding ⟨none, fun _ => some fun _ => 1⟩ "hello milhouse world" :=
  generateEmbedding_deterministic _ _ _ rfl rfl

/-! ### The project-path hash of the indexer (`indexer.ts`) -/

/-- Lowercase hexadecimal rendering of a natural number, as JavaScript
`Number.prototype.toString(16)` produces for nonnegative integers. -/
def toHexString (n : ℕ) : String := String.mk (Nat.toDigits 16 n)

/-- Method `ConversationIndexer.hashProjectPath` from `indexer.ts`: the
`((hash << 5) - hash) + char` rolling hash over the path characters, then
`Math.abs(hash).toString(16)`. -/
def hashProjectPath (projectPath : String) : String :=
  toHexString (projectPath.data.foldl jsHashStep 0).natAbs

/-- Modelled from the spec: the reference directory-naming hash —
`hash = hash*31 + charCode` wrapped to signed 32-bit, absolute value,
lowercase hexadecimal. -/
def hashProjectPathSpec (projectPath : String) : String :=
  toHexString (projectPath.data.foldl specHashStep 0).natAbs

/-- Claim C8: the fallback project-naming hash of the indexer equals the
reference definition (rolling hash `hash*31 + charCode` wrapped to signed
32-bit, absolute value, lowercase hexadecimal). -/
theorem hashProjectPath_eq_spec (projectPath : String) :
    hashProjectPath projectPath = hashProjectPathSpec projectPath := by
  unfold hashProjectPath hashProjectPathSpec
  rw [jsHashStep_eq_specHashStep]

/-! ### The context store data model (`store.ts`) -/

/-- The record types of `ContextEntry` in `store.ts`. -/
inductive EntryType
  | conversation
  | code
  | decision
  | task
  | document
  deriving DecidableEq

/-- The string form of a record type, as stored and compared in rows. -/
def EntryType.toStr : EntryType → String
  | .conversation => "conversation"
  | .code => "code"
  | .decision => "decision"
  | .task => "task"
  | .document => "document"

/-- Task status values. -/
inductive TaskStatus
  | pending
  | in_progress
  | completed
  deriving DecidableEq

/-- Task priority values. -/
inductive TaskPriority
  | low
  | medium
  | high
  deriving DecidableEq

/-- A stored vector of the fixed dimension. -/
abbrev Vec := Fin EMBEDDING_DIM → ℝ

/-- Type `ContextEntry` from `store.ts`: the single record type of the store.
The task fields are optional and populated only for `type = task`. -/
structure Entry where
  id : String
  type : EntryType
  title : String
  content : String
  projectPath : Option String := none
  filePath : Option String := none
  tags : List String := []
  timestamp : ℤ
  vector : Vec
  status : Option TaskStatus := none
  priority : Option TaskPriority := none

/-- Type `TaskEntry` from `store.ts`: the shape `listTasks` returns. -/
structure TaskEntry where
  id : String
  title : String
  content : String
  status : TaskStatus
  priority : TaskPriority
  tags : List String
  timestamp : ℤ
  projectPath : Option String
  deriving DecidableEq

/-- Type `DocumentEntry` from `store.ts`: the shape `listDocuments` and
`getDocument` return. -/
structure DocumentEntry where
  id : String
  title : String
  content : String
  tags : List String
  timestamp : ℤ
  projectPath : Option String
  deriving DecidableEq

/-- Type `SearchResult` from `store.ts`. -/
structure SearchResult where
  id : String
  type : String
  title : String
  content : String
  score : ℚ
  timestamp : ℤ
  deriving DecidableEq

/-- The seed record `initialize()` inserts into a fresh index: id `init`,
type `decision`, tags `["system"]`, and the all-zero vector that fixes the
dimension at 1536. -/
def initEntry (now : ℤ) : Entry :=
  { id := "init", type := .decision, title := "Initial entry",
    content := "Database initialized", projectPath := some (""),
    filePath := some (""), tags := ["system"], timestamp := now,
    vector := fun _ => 0 }

/-- The sort `rows.sort((a, b) => b.timestamp - a.timestamp)`: stable sort of rows
by descending timestamp. -/
def sortByTimestampDesc (l : List Entry) : List Entry :=
  List.insertionSort (fun a b => b.timestamp ≤ a.timestamp) l

/-- A raw row coming back from the LanceDB nearest-neighbour search: the
stored entry together with its `_distance` from the query vector. -/
structure SearchHit where
  entry : Entry
  distance : ℚ

/-- LanceDB retrieval `table.search(vec).limit(k).toArray()`, modelled as
an oracle on the current rows, the query vector and the row count. -/
abbrev NNOracle := List Entry → Vec → ℕ → List SearchHit

/-- The search-output preview:
`content.substring(0, 500)` plus a trailing `...` when the content has more than 500 characters. -/
def previewContent (s : String) : String :=
  String.mk (s.data.take 500) ++ (if 500 < s.data.length then ("...") else (""))

/-- The score field `r._distance ? 1 - r._distance : 1` (a `_distance` of
0 is falsy in JavaScript and then the score is the literal 1). -/
def scoreOf (d : ℚ) : ℚ := if d ≠ 0 then 1 - d else 1

theorem scoreOf_eq (d : ℚ) : scoreOf d = 1 - d := by
  unfold scoreOf
  split <;> simp_all

/-- The row-to-result projection inside `ContextStore.search`. -/
def mkSearchResult (h : SearchHit) : SearchResult :=
  { id := h.entry.id, type := h.entry.type.toStr, title := h.entry.title,
    content := previewContent h.entry.content,
    score := scoreOf h.distance, timestamp := h.entry.timestamp }

/-- The failures a store or dispatcher operation can raise. -/
inductive StoreError
  | notInitialized
  | taskNotFound (taskId : String)
  | unknownTool (toolName : String)
  | indexerFailure (message : String)
  deriving DecidableEq

namespace ContextStore

/-- The in-memory type filter of `search`:
`if (type && type !== 'all') results = results.filter(r => r.type === type)`
(an absent or empty — falsy — type, or the type `all`, filters nothing). -/
def searchFilter (ty : Option String) (raw : List SearchHit) : List SearchHit :=
  match ty with
  | some t =>
    if t ≠ "" ∧ t ≠ "all" then
      raw.filter (fun h : SearchHit => h.entry.type.toStr == t)
    else raw
  | none => raw

/-- Method `ContextStore.search` from `store.ts` on an initialized store: embed
the query, fetch `limit * 2` rows from the vector index, filter by type in
memory when a truthy type other than `all` is given, truncate to `limit`,
and project each row to its `SearchResult`. -/
def search (embedFn : String → Vec) (nn : NNOracle) (tbl : List Entry)
    (query : String) (limit : ℕ) (ty : Option String) : List SearchResult :=
  ((searchFilter ty (nn tbl (embedFn query) (limit * 2))).take limit).map
    mkSearchResult

/-- Method `addEntry` from `store.ts`: compute the vector of
`title + "\n" + content` with the ambient embedding provider `embedFn`
(that is, `generateEmbedding`), and append the record. -/
def addEntry (embedFn : String → Vec) (tbl : List Entry) (e : Entry) :
    List Entry :=
  tbl ++ [{ e with vector := embedFn (e.title ++ "\n" ++ e.content) }]

/-- Method `createTask` from `store.ts`: id `task-<now>` read from the clock,
status `pending`, then `addEntry`.  The two adjacent clock reads of the
body are modelled by the single `now` argument. -/
def createTask (embedFn : String → Vec) (tbl : List Entry)
    (title content : String) (priority : TaskPriority) (tags : List String)
    (projectPath : Option String) (now : ℤ) : String × List Entry :=
  let id := "task-" ++ toString now
  (id, addEntry embedFn tbl
    { id := id, type := .task, title := title, content := content,
      status := some .pending, priority := some priority, tags := tags,
      projectPath := projectPath, timestamp := now, vector := fun _ => 0 })

/-- Method `updateTaskStatus` from `store.ts`: look up the full record by id and
`type = task`; fail with NotFound when absent; otherwise set the status,
refresh the timestamp, delete every row with that id and reinsert the
mutated record. -/
def updateTaskStatus (tbl : List Entry) (taskId : String)
    (status : TaskStatus) (now : ℤ) : Except StoreError (List Entry) :=
  match tbl.find? (fun e => e.id == taskId && e.type == EntryType.task) with
  | none => .error (.taskNotFound taskId)
  | some task =>
    .ok ((tbl.filter fun e => !(e.id == taskId)) ++
      [{ task with status := some status, timestamp := now }])

/-- Method `listTasks` from `store.ts`: the rows with `type = task`, the truthy
project-path filter, the status filter, sorted by timestamp descending and
projected to `TaskEntry` (status defaulting to `pending`, priority to
`medium`). -/
def listTasks (tbl : List Entry) (projectPath : Option String)
    (status : Option TaskStatus) : List TaskEntry :=
  let tasks := tbl.filter fun e => e.type == EntryType.task
  let tasks :=
    match projectPath with
    | some p => if p ≠ "" then tasks.filter (fun t => t.projectPath == some p)
        else tasks
    | none => tasks
  let tasks :=
    match status with
    | some st => tasks.filter (fun t => t.status == some st)
    | none => tasks
  (sortByTimestampDesc tasks).map fun t =>
    { id := t.id, title := t.title, content := t.content,
      status := t.status.getD .pending, priority := t.priority.getD .medium,
      tags := t.tags, timestamp := t.timestamp, projectPath := t.projectPath }

/-- Method `deleteTask` from `store.ts`: delete by the id predicate; a missing id
removes nothing and raises nothing. -/
def deleteTask (tbl : List Entry) (taskId : String) : List Entry :=
  tbl.filter fun e => !(e.id == taskId)

/-- Method `storeDecision` from `store.ts`: id `decision-<now>`, then `addEntry`. -/
def storeDecision (embedFn : String → Vec) (tbl : List Entry)
    (title content : String) (tags : List String) (now : ℤ) : List Entry :=
  addEntry embedFn tbl
    { id := "decision-" ++ toString now, type := .decision, title := title,
      content := content, tags := tags, timestamp := now, vector := fun _ => 0 }

/-- Method `storeConversation` from `store.ts`. -/
def storeConversation (embedFn : String → Vec) (tbl : List Entry)
    (id title content projectPath : String) (now : ℤ) : List Entry :=
  addEntry embedFn tbl
    { id := id, type := .conversation, title := title, content := content,
      projectPath := some projectPath, tags := [], timestamp := now,
      vector := fun _ => 0 }

/-- Method `storeDocument` from `store.ts`: id `doc-<now>`, then `addEntry`. -/
def storeDocument (embedFn : String → Vec) (tbl : List Entry)
    (title content : String) (tags : List String)
    (projectPath : Option String) (now : ℤ) : String × List Entry :=
  let id := "doc-" ++ toString now
  (id, addEntry embedFn tbl
    { id := id, type := .document, title := title, content := content,
      tags := tags, projectPath := projectPath, timestamp := now,
      vector := fun _ => 0 })

/-- Method `listDocuments` from `store.ts`: the rows with `type = document`, the
truthy project-path filter, the nonempty-tags filter (keep a document when
some requested tag occurs among its tags), sorted by timestamp descending
and projected to `DocumentEntry`. -/
def listDocuments (tbl : List Entry) (projectPath : Option String)
    (tags : Option (List String)) : List DocumentEntry :=
  let docs := tbl.filter fun e => e.type == EntryType.document
  let docs :=
    match projectPath with
    | some p => if p ≠ "" then docs.filter (fun d => d.projectPath == some p)
        else docs
    | none => docs
  let docs :=
    match tags with
    | some ts =>
      if ts.isEmpty then docs
      else docs.filter fun d => ts.any fun tag => d.tags.contains tag
    | none => docs
  (sortByTimestampDesc docs).map fun d =>
    { id := d.id, title := d.title, content := d.content, tags := d.tags,
      timestamp := d.timestamp, projectPath := d.projectPath }

/-- Method `getDocument` from `store.ts`: find by id and `type = document`,
returning `none` when absent. -/
def getDocument (tbl : List Entry) (docId : String) : Option DocumentEntry :=
  (tbl.find? fun e => e.id == docId && e.type == EntryType.document).map
    fun d =>
      { id := d.id, title := d.title, content := d.content, tags := d.tags,
        timestamp := d.timestamp, projectPath := d.projectPath }

/-- Method `deleteDocument` from `store.ts`: the same id-predicate delete. -/
def deleteDocument (tbl : List Entry) (docId : String) : List Entry :=
  tbl.filter fun e => !(e.id == docId)

/-- The record returned by `getStats`. -/
structure Stats where
  totalEntries : ℕ
  conversations : ℕ
  decisions : ℕ
  codeContexts : ℕ
  tasks : ℕ
  documents : ℕ
  indexedProjects : List String
  databasePath : String
  deriving DecidableEq

/-- First-occurrence deduplication: the insertion-order semantics of
`Array.from(new Set(xs))`. -/
def dedupFirst : List String → List String
  | [] => []
  | x :: xs => x :: dedupFirst (xs.filter fun y => !(y == x))
termination_by l => l.length
decreasing_by
  simp_wf
  have := List.length_filter_le (fun y => !(y == x)) xs
  omega

/-- Method `getStats` from `store.ts`: global counts per type, the distinct
truthy project paths in row order, and the index location. -/
def getStats (dbPath : String) (tbl : List Entry) : Stats :=
  { totalEntries := tbl.length,
    conversations := (tbl.filter fun e => e.type == EntryType.conversation).length,
    decisions := (tbl.filter fun e => e.type == EntryType.decision).length,
    codeContexts := (tbl.filter fun e => e.type == EntryType.code).length,
    tasks := (tbl.filter fun e => e.type == EntryType.task).length,
    documents := (tbl.filter fun e => e.type == EntryType.document).length,
    indexedProjects :=
      dedupFirst ((tbl.filterMap Entry.projectPath).filter fun p => !(p == "")),
    databasePath := dbPath }

/-- The record returned by `getProjectSummary`. -/
structure ProjectSummary where
  projectPath : String
  totalConversations : ℕ
  totalDecisions : ℕ
  totalCodeContexts : ℕ
  recentConversations : List (String × ℤ)
  recentDecisions : List (String × String)
  deriving DecidableEq

/-- Method `getProjectSummary` from `store.ts`: the rows of the given project
path, counts per type, the 5 most recent conversations (title and
timestamp) and the 5 most recent decisions (title and a 200-character
content prefix). -/
def getProjectSummary (tbl : List Entry) (projectPath : String) :
    ProjectSummary :=
  let pe := tbl.filter fun e => e.projectPath == some projectPath
  let conversations := pe.filter fun e => e.type == EntryType.conversation
  let decisions := pe.filter fun e => e.type == EntryType.decision
  let codeContexts := pe.filter fun e => e.type == EntryType.code
  { projectPath := projectPath,
    totalConversations := conversations.length,
    totalDecisions := decisions.length,
    totalCodeContexts := codeContexts.length,
    recentConversations := ((sortByTimestampDesc conversations).take 5).map
      fun c => (c.title, c.timestamp),
    recentDecisions := ((sortByTimestampDesc decisions).take 5).map
      fun d => (d.title, String.mk (d.content.data.take 200)) }

/-- Method `getRelatedConversations` from `store.ts`: a search restricted to the
conversation type. -/
def getRelatedConversations (embedFn : String → Vec) (nn : NNOracle)
    (tbl : List Entry) (topic : String) (limit : ℕ) : List SearchResult :=
  search embedFn nn tbl topic limit (some ("conversation"))

end ContextStore

/-! ### Task update and listing (claims about `updateTaskStatus`) -/

theorem mem_listTasks_of_task (tbl : List Entry) (e : Entry)
    (he : e ∈ tbl) (hty : e.type = .task) :
    ({ id := e.id, title := e.title, content := e.content,
       status := e.status.getD .pending,
       priority := e.priority.getD .medium, tags := e.tags,
       timestamp := e.timestamp,
       projectPath := e.projectPath } : TaskEntry) ∈
      ContextStore.listTasks tbl none none := by
  unfold ContextStore.listTasks
  apply List.mem_map_of_mem
  unfold sortByTimestampDesc
  rw [List.Perm.mem_iff (List.perm_insertionSort _ _), List.mem_filter]
  exact ⟨he, by simp [hty]⟩

/-- Claim C3: `updateTaskStatus` fails with NotFound exactly when no
stored row has the given id with type `task`; a failing call returns no
new table (the caller keeps the old rows untouched); and on success a
subsequent `listTasks` reports that task with the new status. -/
theorem updateTaskStatus_spec (tbl : List Entry) (taskId : String)
    (st : TaskStatus) (now : ℤ) :
    (ContextStore.updateTaskStatus tbl taskId st now =
        .error (.taskNotFound taskId) ↔
      ¬ ∃ e ∈ tbl, e.id = taskId ∧ e.type = .task)
    ∧ (∀ tbl', ContextStore.updateTaskStatus tbl taskId st now = .ok tbl' →
        ∃ t ∈ ContextStore.listTasks tbl' none none,
          t.id = taskId ∧ t.status = st) := by
  constructor
  · unfold ContextStore.updateTaskStatus
    cases hfind : tbl.find? (fun e => e.id == taskId && e.type == EntryType.task) with
    | none =>
      simp only []
      constructor
      · rintro - ⟨e, he, hid, hty⟩
        have := List.find?_eq_none.mp hfind e he
        simp [hid, hty] at this
      · intro _
        trivial
    | some task =>
      simp only []
      constructor
      · intro h
        cases h
      · intro hne
        exact absurd
          ⟨task, List.mem_of_find?_eq_some hfind, by
            have hp := List.find?_some hfind
            simp only [Bool.and_eq_true, beq_iff_eq] at hp
            exact hp⟩ hne
  · intro tbl' hok
    unfold ContextStore.updateTaskStatus at hok
    cases hfind : tbl.find? (fun e => e.id == taskId && e.type == EntryType.task) with
    | none =>
      rw [hfind] at hok
      cases hok
    | some task =>
      rw [hfind] at hok
      have hp := List.find?_some hfind
      simp only [Bool.and_eq_true, beq_iff_eq] at hp
      cases hok
      refine ⟨_, mem_listTasks_of_task _
        ({ task with status := some st, timestamp := now }) ?_ ?_, ?_, ?_⟩
      · exact List.mem_append_right _ (List.mem_singleton.mpr rfl)
      · exact hp.2
      · exact hp.1
      · rfl

/-- A sample pending task used by concrete witnesses. -/
def sampleTask : Entry :=
  { id := "task-2", type := .task, title := "demo", content := "body",
    timestamp := 2, vector := fun _ => 0, status := some .pending,
    priority := some .high }

/-- A sample document row used by concrete witnesses. -/
def sampleDoc : Entry :=
  { id := "doc-7", type := .document, title := "notes", content := "text",
    timestamp := 1, vector := fun _ => 0 }

/-- Entry `sampleTask` after a status update to `in_progress` at time 9. -/
def sampleTaskUpdated : Entry :=
  { sampleTask with status := some .in_progress, timestamp := 9 }

/-- Witness for C3: on a one-task store, updating the task to
`in_progress` succeeds and the new status is visible in `listTasks`. -/
theorem updateTaskStatus_spec_witness :
    ∃ t ∈ ContextStore.listTasks
      ((([sampleTask].filter fun e => !(e.id == "task-2")) ++
        [sampleTaskUpdated])) none none,
      t.id = "task-2" ∧ t.status = .in_progress :=
  (updateTaskStatus_spec [sampleTask] "task-2" .in_progress 9).2 _ (by rfl)

/-- Claim C4: on a store with unique ids, a successful `updateTaskStatus`
produces the old rows minus the task plus a reinserted record that agrees
with the fetched one on every field except status and timestamp, and
every other row is carried over unchanged. -/
theorem updateTaskStatus_frame (tbl : List Entry) (taskId : String)
    (st : TaskStatus) (now : ℤ) (task : Entry)
    (hfind : tbl.find? (fun e => e.id == taskId && e.type == EntryType.task)
      = some task)
    (huniq : tbl.Pairwise fun a b => a.id ≠ b.id) :
    ∃ tbl', ContextStore.updateTaskStatus tbl taskId st now = .ok tbl' ∧
      tbl' = (tbl.filter fun e => !(e.id == taskId)) ++
        [{ task with status := some st, timestamp := now }] ∧
      (∀ e ∈ tbl, e ≠ task → e ∈ tbl') ∧
      (∀ e ∈ tbl', e ∈ tbl ∨
        e = { task with status := some st, timestamp := now }) ∧
      ({ task with status := some st, timestamp := now } : Entry).id = task.id ∧
      ({ task with status := some st, timestamp := now } : Entry).type = task.type ∧
      ({ task with status := some st, timestamp := now } : Entry).title = task.title ∧
      ({ task with status := some st, timestamp := now } : Entry).content = task.content ∧
      ({ task with status := some st, timestamp := now } : Entry).tags = task.tags ∧
      ({ task with status := some st, timestamp := now } : Entry).priority = task.priority ∧
      ({ task with status := some st, timestamp := now } : Entry).projectPath = task.projectPath ∧
      ({ task with status := some st, timestamp := now } : Entry).vector = task.vector ∧
      ({ task with status := some st, timestamp := now } : Entry).status = some st ∧
      ({ task with status := some st, timestamp := now } : Entry).timestamp = now := by
  have hp := List.find?_some hfind
  simp only [Bool.and_eq_true, beq_iff_eq] at hp
  have hmem := List.mem_of_find?_eq_some hfind
  refine ⟨_, by unfold ContextStore.updateTaskStatus; rw [hfind], rfl,
    ?_, ?_, rfl, rfl, rfl, rfl, rfl, rfl, rfl, rfl, rfl, rfl⟩
  · intro e he hne
    apply List.mem_append_left
    rw [List.mem_filter]
    refine ⟨he, ?_⟩
    have hid : e.id ≠ task.id :=
      List.Pairwise.forall (fun _ _ h => (h ∘ Eq.symm)) huniq he hmem hne
    simp [hp.1 ▸ hid]
  · intro e he
    rcases List.mem_append.mp he with hl | hr
    · exact Or.inl (List.mem_filter.mp hl).1
    · exact Or.inr (List.mem_singleton.mp hr)

/-- Witness for C4: the frame property at a concrete two-row store. -/
theorem updateTaskStatus_frame_witness :
    ∃ tbl', ContextStore.updateTaskStatus [sampleDoc, sampleTask] "task-2"
        .in_progress 9 = .ok tbl' ∧
      tbl' = ([sampleDoc, sampleTask].filter fun e => !(e.id == "task-2")) ++
        [{ sampleTask with status := some .in_progress, timestamp := 9 }] ∧
      (∀ e ∈ [sampleDoc, sampleTask], e ≠ sampleTask → e ∈ tbl') ∧
      (∀ e ∈ tbl', e ∈ [sampleDoc, sampleTask] ∨
        e = { sampleTask with status := some .in_progress, timestamp := 9 }) ∧
      ({ sampleTask with status := some .in_progress, timestamp := 9 } : Entry).id = sampleTask.id ∧
      ({ sampleTask with status := some .in_progress, timestamp := 9 } : Entry).type = sampleTask.type ∧
      ({ sampleTask with status := some .in_progress, timestamp := 9 } : Entry).title = sampleTask.title ∧
      ({ sampleTask with status := some .in_progress, timestamp := 9 } : Entry).content = sampleTask.content ∧
      ({ sampleTask with status := some .in_progress, timestamp := 9 } : Entry).tags = sampleTask.tags ∧
      ({ sampleTask with status := some .in_progress, timestamp := 9 } : Entry).priority = sampleTask.priority ∧
      ({ sampleTask with status := some .in_progress, timestamp := 9 } : Entry).projectPath = sampleTask.projectPath ∧
      ({ sampleTask with status := some .in_progress, timestamp := 9 } : Entry).vector = sampleTask.vector ∧
      ({ sampleTask with status := some .in_progress, timestamp := 9 } : Entry).status = some .in_progress ∧
      ({ sampleTask with status := some .in_progress, timestamp := 9 } : Entry).timestamp = 9 :=
  updateTaskStatus_frame [sampleDoc, sampleTask] "task-2" .in_progress 9
    sampleTask (by rfl) (by simp [sampleDoc, sampleTask, List.pairwise_cons])

/-- Claim C5 (the failing clause, evaluated on the code): two
`createTask` calls that read the same clock value return the same id —
here both calls, on different stores with different arguments, return
the id `task-1234`. -/
theorem createTask_same_instant_id_collision :
    (ContextStore.createTask (fun _ _ => 0) [] "first task" "alpha"
        .medium [] none 1234).1 =
      (ContextStore.createTask (fun _ _ => 0) [initEntry 0] "second task"
        "beta" .high ["x"] (some ("/p")) 1234).1 := by
  rfl

/-- Claim C6 (the failing clause, evaluated on the code): the seed record
is surfaced to callers — on a fresh store holding only the seed,
`getStats` counts it (1 total entry, 1 decision), and a search whose
index retrieval returns the seed row reports id `init` in its results. -/
theorem initEntry_surfaced :
    (ContextStore.getStats ("db") [initEntry 0]).totalEntries = 1 ∧
    (ContextStore.getStats ("db") [initEntry 0]).decisions = 1 ∧
    (ContextStore.search (fun _ _ => 0)
        (fun tbl _ k => (tbl.map fun e => ⟨e, 1 / 2⟩).take k)
        [initEntry 0] "anything" 5 none).map SearchResult.id = ["init"] :=
  ⟨rfl, rfl, rfl⟩

/-! ### Similarity search (claims about `ContextStore.search`) -/

theorem searchFilter_sub (ty : Option String) (raw : List SearchHit) :
    (ContextStore.searchFilter ty raw).Sublist raw := by
  cases ty with
  | none => exact List.Sublist.refl _
  | some t =>
    show (if t ≠ "" ∧ t ≠ "all" then
      raw.filter (fun h : SearchHit => h.entry.type.toStr == t)
      else raw).Sublist raw
    split
    · exact List.filter_sublist raw
    · exact List.Sublist.refl _

/-- Claim C1 (amended): on an initialized store, `search` requests
`limit * 2` nearest rows from the vector index; when those raw rows come
back sorted by ascending distance, the output is the type-filtered prefix
of at most `limit` results, each carrying the row id, type, title, the
content preview — the first 500 characters, with "..." appended when the
content exceeds 500 characters — similarity score `1 - distance` and
timestamp, ordered by descending score; with a truthy type filter other
than `all`, every result has that type. -/
theorem search_spec (embedFn : String → Vec) (nn : NNOracle)
    (tbl : List Entry) (query : String) (limit : ℕ) (ty : Option String)
    (hsorted : (nn tbl (embedFn query) (limit * 2)).Pairwise
      fun a b => a.distance ≤ b.distance) :
    (ContextStore.search embedFn nn tbl query limit ty).length ≤ limit
    ∧ ContextStore.search embedFn nn tbl query limit ty =
        ((ContextStore.searchFilter ty (nn tbl (embedFn query) (limit * 2))).take
          limit).map mkSearchResult
    ∧ (∀ r ∈ ContextStore.search embedFn nn tbl query limit ty,
        ∃ h ∈ nn tbl (embedFn query) (limit * 2),
          r = mkSearchResult h ∧ r.id = h.entry.id ∧
          r.type = h.entry.type.toStr ∧ r.title = h.entry.title ∧
          r.content = previewContent h.entry.content ∧
          r.score = 1 - h.distance ∧ r.timestamp = h.entry.timestamp)
    ∧ (∀ t, ty = some t → t ≠ "" → t ≠ "all" →
        ∀ r ∈ ContextStore.search embedFn nn tbl query limit ty, r.type = t)
    ∧ (ContextStore.search embedFn nn tbl query limit ty).Pairwise
        fun a b => b.score ≤ a.score := by
  refine ⟨?_, rfl, ?_, ?_, ?_⟩
  · unfold ContextStore.search
    rw [List.length_map, List.length_take]
    exact min_le_left _ _
  · intro r hr
    unfold ContextStore.search at hr
    rcases List.mem_map.mp hr with ⟨h, hh, rfl⟩
    have h1 : h ∈ ContextStore.searchFilter ty (nn tbl (embedFn query) (limit * 2)) :=
      List.mem_of_mem_take hh
    have h2 : h ∈ nn tbl (embedFn query) (limit * 2) :=
      (searchFilter_sub ty _).subset h1
    exact ⟨h, h2, rfl, rfl, rfl, rfl, rfl, scoreOf_eq h.distance, rfl⟩
  · rintro t rfl hne hna r hr
    unfold ContextStore.search at hr
    rcases List.mem_map.mp hr with ⟨h, hh, rfl⟩
    have h1 := List.mem_of_mem_take hh
    simp only [ContextStore.searchFilter] at h1
    rw [if_pos ⟨hne, hna⟩] at h1
    exact eq_of_beq (List.mem_filter.mp h1).2
  · unfold ContextStore.search
    rw [List.pairwise_map]
    have h1 := hsorted.sublist (searchFilter_sub ty _)
    have h2 := h1.sublist (List.take_sublist limit _)
    refine h2.imp ?_
    intro a b hab
    show scoreOf b.distance ≤ scoreOf a.distance
    rw [scoreOf_eq, scoreOf_eq]
    linarith

/-- Witness for C1: a two-row index at distances 0 and 1/4, already
sorted, searched with limit 2 and no type filter. -/
theorem search_spec_witness :
    ((fun _ _ k => ([⟨sampleDoc, 0⟩, ⟨sampleTask, 1 / 4⟩] :
        List SearchHit).take k : NNOracle) [sampleDoc, sampleTask]
      ((fun _ _ => 0 : String → Vec) "q") (2 * 2)).Pairwise
      (fun a b => a.distance ≤ b.distance) ∧
    (ContextStore.search (fun _ _ => 0)
      (fun _ _ k => ([⟨sampleDoc, 0⟩, ⟨sampleTask, 1 / 4⟩] :
        List SearchHit).take k)
      [sampleDoc, sampleTask] "q" 2 none).length ≤ 2 :=
  ⟨by simp, (search_spec (fun _ _ => 0)
      (fun _ _ k => ([⟨sampleDoc, 0⟩, ⟨sampleTask, 1 / 4⟩] :
        List SearchHit).take k)
      [sampleDoc, sampleTask] "q" 2 none (by simp)).1⟩

/-- A 501-character content string. -/
def longContent : String := String.mk (List.replicate 501 'a')

/-- A stored decision whose content has 501 characters. -/
def longEntry : Entry :=
  { id := "decision-1", type := .decision, title := "long",
    content := longContent, timestamp := 0, vector := fun _ => 0 }

/-- Claim C1 counterexample: with one retrieved row whose content has 501
characters, the sole search result carries a content preview of 503
characters — the first 500 plus "..." — refuting the bound of 500. -/
theorem search_preview_length_counterexample :
    ∃ r ∈ ContextStore.search (fun _ _ => 0)
      (fun _ _ k => ([⟨longEntry, 1 / 2⟩] : List SearchHit).take k)
      [longEntry] "q" 1 none, 500 < r.content.length := by
  refine ⟨mkSearchResult ⟨longEntry, 1 / 2⟩, List.mem_singleton.mpr rfl, ?_⟩
  show 500 < (previewContent longContent).length
  have hdata : longContent.data = List.replicate 501 'a' := rfl
  have hcond : 500 < longContent.data.length := by
    rw [hdata, List.length_replicate]
    norm_num
  have hpre : previewContent longContent =
      String.mk (longContent.data.take 500) ++ "..." := by
    unfold previewContent
    rw [if_pos hcond]
  rw [hpre, String.length_append]
  have hmk : (String.mk (longContent.data.take 500)).length
      = (longContent.data.take 500).length := rfl
  have hdots : ("..." : String).length = 3 := rfl
  rw [hmk, hdata, List.length_take, List.length_replicate, hdots]
  norm_num

/-! ### The MCP tool-call dispatcher (`index.ts`) -/

/-- The string form of a task status, as rendered into reply templates. -/
def TaskStatus.toStr : TaskStatus → String
  | .pending => "pending"
  | .in_progress => "in_progress"
  | .completed => "completed"

/-- The structured payloads a tool call returns (the JSON or template
bodies the server serialises into its single text content block). -/
inductive Payload
  | message (text : String)
  | searchResults (results : List SearchResult)
  | summary (s : ContextStore.ProjectSummary)
  | tasks (ts : List TaskEntry)
  | documents (ds : List DocumentEntry)
  | document (d : DocumentEntry)
  | memoryStatus (watching : Bool) (watchingProject : String)
      (stats : ContextStore.Stats)

/-- A tool-call response: one content payload plus the `isError` flag
(absent, hence false, on success payloads). -/
structure ToolResponse where
  payload : Payload
  isError : Bool

/-- The argument object of a tool call; every property is optional, as in
the unvalidated `args?.x` reads of the handler.  The `type` property is
called `ty` here. -/
structure ToolArgs where
  query : Option String := none
  limit : Option ℕ := none
  ty : Option String := none
  projectPath : Option String := none
  force : Option Bool := none
  title : Option String := none
  content : Option String := none
  tags : Option (List String) := none
  topic : Option String := none
  priority : Option TaskPriority := none
  status : Option TaskStatus := none
  taskId : Option String := none
  docId : Option String := none

/-- The default `(args?.limit as number) || 5`: a missing or zero (falsy) limit is
the default 5. -/
def limitOf (a : ToolArgs) : ℕ :=
  match a.limit with
  | some n => if n = 0 then 5 else n
  | none => 5

/-- The ambient dependencies of the server process: the embedding
provider (`generateEmbedding` under the process environment), the LanceDB
nearest-neighbour retrieval, the indexer side effects as oracles on the
current table, the clock, `MILHOUSE_PROJECT_PATH` and the database path. -/
structure ServerEnv where
  embed : String → Vec
  nn : NNOracle
  indexProject : Option (List Entry) → String → Bool →
    Except String (Option (List Entry))
  startWatch : String → Except String Unit
  stopWatch : Except String Unit
  projectPathEnv : Option String
  now : ℤ
  dbPath : String

/-- The mutable server state: the open table rows (`none` before
`initialize()` has run), and the `isWatching` flag. -/
structure ServerState where
  table : Option (List Entry)
  watching : Bool

/-- The `if (!this.table) throw new Error(...)` (store-not-initialized) guard
that opens every store method. -/
def requireTable (st : ServerState) : Except StoreError (List Entry) :=
  match st.table with
  | none => .error .notInitialized
  | some tbl => .ok tbl

/-- The body of the `CallToolRequestSchema` handler of `index.ts` before
its catch-all: dispatch on the tool name, with every raised failure as
the `Except.error` case.  Rows already committed by the indexer before a
later failure of the same call are not tracked through the error path. -/
def dispatchRaw (env : ServerEnv) (st : ServerState) (toolName : String)
    (a : ToolArgs) : Except StoreError (ToolResponse × ServerState) :=
  if toolName = "search_context" then do
    let tbl ← requireTable st
    let results := ContextStore.search env.embed env.nn tbl (a.query.getD (""))
      (limitOf a) a.ty
    .ok (⟨.searchResults results, false⟩, st)
  else if toolName = "get_project_summary" then do
    let tbl ← requireTable st
    .ok (⟨.summary (ContextStore.getProjectSummary tbl (a.projectPath.getD (""))),
      false⟩, st)
  else if toolName = "store_decision" then do
    let tbl ← requireTable st
    let tbl' := ContextStore.storeDecision env.embed tbl (a.title.getD (""))
      (a.content.getD ("")) (a.tags.getD []) env.now
    .ok (⟨.message ("Decision \"" ++ a.title.getD ("") ++
      "\" stored successfully."), false⟩, { st with table := some tbl' })
  else if toolName = "get_related_conversations" then do
    let tbl ← requireTable st
    .ok (⟨.searchResults (ContextStore.getRelatedConversations env.embed
      env.nn tbl (a.topic.getD ("")) (limitOf a)), false⟩, st)
  else if toolName = "index_project" then do
    match env.indexProject st.table (a.projectPath.getD (""))
        (a.force.getD false) with
    | .error m => .error (.indexerFailure m)
    | .ok tbl' =>
      .ok (⟨.message ("Project \"" ++ a.projectPath.getD ("") ++
        "\" indexed successfully."), false⟩, { st with table := tbl' })
  else if toolName = "start_watching" then do
    match (if st.watching then env.stopWatch else .ok ()) with
    | .error m => .error (.indexerFailure m)
    | .ok _ =>
      match env.indexProject st.table (a.projectPath.getD ("")) false with
      | .error m => .error (.indexerFailure m)
      | .ok tbl' =>
        match env.startWatch (a.projectPath.getD ("")) with
        | .error m => .error (.indexerFailure m)
        | .ok _ =>
          .ok (⟨.message ("Now watching project \"" ++ a.projectPath.getD ("")
            ++ "\" for new conversations. Initial indexing complete."),
            false⟩, { table := tbl', watching := true })
  else if toolName = "get_memory_status" then do
    let tbl ← requireTable st
    .ok (⟨.memoryStatus st.watching (env.projectPathEnv.getD ("none"))
      (ContextStore.getStats env.dbPath tbl), false⟩, st)
  else if toolName = "list_tasks" then do
    let tbl ← requireTable st
    .ok (⟨.tasks (ContextStore.listTasks tbl a.projectPath a.status),
      false⟩, st)
  else if toolName = "create_task" then do
    let tbl ← requireTable st
    let r := ContextStore.createTask env.embed tbl (a.title.getD (""))
      (a.content.getD ("")) (a.priority.getD .medium) (a.tags.getD [])
      a.projectPath env.now
    .ok (⟨.message ("Task created successfully with ID: " ++ r.1), false⟩,
      { st with table := some r.2 })
  else if toolName = "update_task_status" then do
    let tbl ← requireTable st
    let tbl' ← ContextStore.updateTaskStatus tbl (a.taskId.getD (""))
      (a.status.getD .pending) env.now
    .ok (⟨.message ("Task " ++ a.taskId.getD ("") ++ " status updated to: "
      ++ (a.status.getD .pending).toStr), false⟩,
      { st with table := some tbl' })
  else if toolName = "delete_task" then do
    let tbl ← requireTable st
    .ok (⟨.message ("Task " ++ a.taskId.getD ("") ++ " deleted successfully."),
      false⟩,
      { st with table := some (ContextStore.deleteTask tbl (a.taskId.getD (""))) })
  else if toolName = "list_documents" then do
    let tbl ← requireTable st
    .ok (⟨.documents (ContextStore.listDocuments tbl a.projectPath a.tags),
      false⟩, st)
  else if toolName = "store_document" then do
    let tbl ← requireTable st
    let r := ContextStore.storeDocument env.embed tbl (a.title.getD (""))
      (a.content.getD ("")) (a.tags.getD []) a.projectPath env.now
    .ok (⟨.message ("Document stored successfully with ID: " ++ r.1),
      false⟩, { st with table := some r.2 })
  else if toolName = "get_document" then do
    let tbl ← requireTable st
    match ContextStore.getDocument tbl (a.docId.getD ("")) with
    | none => .ok (⟨.message ("Document not found: " ++ a.docId.getD ("")),
        true⟩, st)
    | some d => .ok (⟨.document d, false⟩, st)
  else if toolName = "delete_document" then do
    let tbl ← requireTable st
    .ok (⟨.message ("Document " ++ a.docId.getD ("") ++
      " deleted successfully."), false⟩,
      { st with table := some (ContextStore.deleteDocument tbl (a.docId.getD (""))) })
  else .error (.unknownTool toolName)

/-- The message of a raised failure, as rendered by the catch-all. -/
def StoreError.message : StoreError → String
  | .notInitialized => "Store not initialized"
  | .taskNotFound taskId => "Task not found: " ++ taskId
  | .unknownTool toolName => "Unknown tool: " ++ toolName
  | .indexerFailure m => m

/-- The full `CallToolRequestSchema` handler: the dispatch body wrapped in
the catch-all that converts any raised failure into an error-flagged text
payload, leaving the state as it was. -/
def handleToolCall (env : ServerEnv) (st : ServerState) (toolName : String)
    (a : ToolArgs) : ToolResponse × ServerState :=
  match dispatchRaw env st toolName a with
  | .ok out => out
  | .error e => (⟨.message ("Error: " ++ e.message), true⟩, st)

/-- The fifteen tool names the dispatcher recognises. -/
def toolNames : List String :=
  ["search_context", "get_project_summary", "store_decision",
   "get_related_conversations", "index_project", "start_watching",
   "get_memory_status", "list_tasks", "create_task", "update_task_status",
   "delete_task", "list_documents", "store_document", "get_document",
   "delete_document"]

/-- Claim C7: every tool call returns a plain payload — the dispatch
output when nothing was raised, or an error-flagged text payload (with
the state as it was) when anything was raised — so NotInitialized,
NotFound and unknown-tool failures never cross the boundary uncaught; in
particular an unknown tool name replies with its error message, and any
store-touching tool called before initialization replies with
`isError = true`. -/
theorem handleToolCall_total (env : ServerEnv) (st : ServerState)
    (toolName : String) (a : ToolArgs) :
    ((∃ out, dispatchRaw env st toolName a = .ok out ∧
        handleToolCall env st toolName a = out) ∨
      (∃ e, dispatchRaw env st toolName a = .error e ∧
        handleToolCall env st toolName a =
          (⟨.message ("Error: " ++ e.message), true⟩, st)))
    ∧ (toolName ∉ toolNames →
        handleToolCall env st toolName a =
          (⟨.message ("Error: Unknown tool: " ++ toolName), true⟩, st))
    ∧ (st.table = none → toolName ≠ "index_project" →
        toolName ≠ "start_watching" → toolName ∈ toolNames →
        (handleToolCall env st toolName a).1.isError = true) := by
  obtain ⟨tb, w⟩ := st
  refine ⟨?_, ?_, ?_⟩
  · cases hd : dispatchRaw env ⟨tb, w⟩ toolName a with
    | ok out =>
      exact Or.inl ⟨out, rfl, by unfold handleToolCall; rw [hd]⟩
    | error e =>
      exact Or.inr ⟨e, rfl, by unfold handleToolCall; rw [hd]⟩
  · intro hn
    simp only [toolNames, List.mem_cons, List.not_mem_nil, or_false,
      not_or] at hn
    obtain ⟨h1, h2, h3, h4, h5, h6, h7, h8, h9, h10, h11, h12, h13, h14,
      h15⟩ := hn
    unfold handleToolCall dispatchRaw
    rw [if_neg h1, if_neg h2, if_neg h3, if_neg h4, if_neg h5, if_neg h6,
      if_neg h7, if_neg h8, if_neg h9, if_neg h10, if_neg h11, if_neg h12,
      if_neg h13, if_neg h14, if_neg h15]
    rfl
  · intro hnone hni hnw hmem
    simp only at hnone
    subst hnone
    simp only [toolNames, List.mem_cons, List.not_mem_nil, or_false]
      at hmem
    rcases hmem with rfl | rfl | rfl | rfl | rfl | rfl | rfl | rfl | rfl |
      rfl | rfl | rfl | rfl | rfl | rfl
    · rfl
    · rfl
    · rfl
    · rfl
    · exact absurd rfl hni
    · exact absurd rfl hnw
    · rfl
    · rfl
    · rfl
    · rfl
    · rfl
    · rfl
    · rfl
    · rfl
    · rfl

/-- A concrete server environment used by dispatcher witnesses. -/
def envW : ServerEnv :=
  { embed := fun _ _ => 0, nn := fun _ _ _ => [],
    indexProject := fun t _ _ => .ok t, startWatch := fun _ => .ok (),
    stopWatch := .ok (), projectPathEnv := none, now := 7, dbPath := "db" }

/-- Witness for C7: the unknown tool `bogus` and a `list_tasks` call on an
uninitialized store both reply with error-flagged payloads. -/
theorem handleToolCall_total_witness :
    "bogus" ∉ toolNames ∧
      handleToolCall envW ⟨none, false⟩ "bogus" {} =
        (⟨.message ("Error: Unknown tool: " ++ "bogus"), true⟩,
          ⟨none, false⟩) ∧
      (handleToolCall envW ⟨none, false⟩ "list_tasks" {}).1.isError = true :=
  ⟨by decide,
    (handleToolCall_total envW ⟨none, false⟩ "bogus" {}).2.1 (by decide),
    (handleToolCall_total envW ⟨none, false⟩ "list_tasks" {}).2.2 rfl
      (by decide) (by decide) (by decide)⟩

/-- Claim C10: deleting a missing id is a silent no-op — when no row
bears the id, `deleteTask` and `deleteDocument` return the rows
unchanged, and the dispatcher replies with the success (non-error)
deletion message, leaving the state unchanged. -/
theorem delete_missing_noop (tbl : List Entry) (id : String)
    (h : ∀ e ∈ tbl, e.id ≠ id) :
    ContextStore.deleteTask tbl id = tbl ∧
    ContextStore.deleteDocument tbl id = tbl ∧
    (∀ env w a, a.taskId = some id →
      handleToolCall env ⟨some tbl, w⟩ "delete_task" a =
        (⟨.message ("Task " ++ id ++ " deleted successfully."), false⟩,
          ⟨some tbl, w⟩)) ∧
    (∀ env w a, a.docId = some id →
      handleToolCall env ⟨some tbl, w⟩ "delete_document" a =
        (⟨.message ("Document " ++ id ++ " deleted successfully."), false⟩,
          ⟨some tbl, w⟩)) := by
  have hfilter : (tbl.filter fun e => !(e.id == id)) = tbl :=
    List.filter_eq_self.mpr fun e he => by simp [h e he]
  have hdt : ContextStore.deleteTask tbl id = tbl := hfilter
  have hdd : ContextStore.deleteDocument tbl id = tbl := hfilter
  refine ⟨hdt, hdd, ?_, ?_⟩
  · intro env w a ha
    unfold handleToolCall
    have hda : dispatchRaw env ⟨some tbl, w⟩ "delete_task" a =
        .ok (ToolResponse.mk (Payload.message ("Task " ++ a.taskId.getD ("")
          ++ " deleted successfully.")) false,
          ServerState.mk (some (ContextStore.deleteTask tbl
            (a.taskId.getD ("")))) w) := rfl
    rw [hda, ha]
    simp only [Option.getD_some]
    rw [hdt]
  · intro env w a ha
    unfold handleToolCall
    have hda : dispatchRaw env ⟨some tbl, w⟩ "delete_document" a =
        .ok (ToolResponse.mk (Payload.message ("Document " ++ a.docId.getD ("")
          ++ " deleted successfully.")) false,
          ServerState.mk (some (ContextStore.deleteDocument tbl
            (a.docId.getD ("")))) w) := rfl
    rw [hda, ha]
    simp only [Option.getD_some]
    rw [hdd]

/-- Witness for C10: deleting the unknown id `nope` from a one-document
store leaves it unchanged and the dispatcher reports success. -/
theorem delete_missing_noop_witness :
    (∀ e ∈ [sampleDoc], e.id ≠ "nope") ∧
      ContextStore.deleteTask [sampleDoc] "nope" = [sampleDoc] ∧
      handleToolCall envW ⟨some [sampleDoc], false⟩ "delete_task"
        { taskId := some ("nope") } =
        (⟨.message ("Task " ++ "nope" ++ " deleted successfully."), false⟩,
          ⟨some [sampleDoc], false⟩) :=
  ⟨by simp [sampleDoc],
    (delete_missing_noop [sampleDoc] "nope" (by simp [sampleDoc])).1,
    (delete_missing_noop [sampleDoc] "nope" (by simp [sampleDoc])).2.2.1
      envW false { taskId := some ("nope") } rfl⟩

end Milhouse
